import Mathlib

/-!
Verification of the Nooma-Scroll plugin/feed architecture: the pipes flow
engine (parser + connectivity traversal), the black-box state contract
(Uninitialized → Playing → Completed), the game registry, the scanner, the
feed algorithm and the level loader.  The repository ships a planning
document rather than finished modules, so components whose code is missing
are modelled from the specification; code blocks that do appear in the plan
(the gameData initializer, the getPipesLevel pattern, the callback types)
are embedded directly.
-/

namespace Nooma

/-- Cardinal directions on the pipe grid. -/
inductive Dir
  | up
  | right
  | down
  | left
deriving DecidableEq, Repr

/-- The direction opposite to a given one. -/
def Dir.opposite : Dir → Dir
  | .up => .down
  | .right => .left
  | .down => .up
  | .left => .right

/-- One clockwise quarter turn of a direction. -/
def Dir.rotateCW : Dir → Dir
  | .up => .right
  | .right => .down
  | .down => .left
  | .left => .up

/-- All four directions, the iteration order of the traversal. -/
def dirs : List Dir := [.up, .right, .down, .left]

/-- The closed token set of piece types from the level-file interface:
straight, elbow, tee, cross, the four corner variants and the pool. -/
inductive PipeType
  | S
  | L
  | T
  | X
  | K1
  | K2
  | K3
  | K4
  | P
deriving DecidableEq, Repr

/-- Modelled from the spec: the PIECE_DEFINITIONS table is referenced by the
plan but absent from the repository.  Openings of each piece at rotation 0:
straight is a vertical pipe, elbow and the corner variants join two adjacent
sides, the tee joins three, the cross all four, and the pool (sink) accepts
water from every side. -/
def PipeType.baseOpenings : PipeType → List Dir
  | .S => [.up, .down]
  | .L => [.up, .right]
  | .T => [.left, .up, .right]
  | .X => [.up, .right, .down, .left]
  | .K1 => [.up, .right]
  | .K2 => [.right, .down]
  | .K3 => [.down, .left]
  | .K4 => [.left, .up]
  | .P => [.up, .right, .down, .left]

/-- Whether a piece of the given type, turned clockwise by the given number
of quarter turns (taken modulo 4 per the data-model invariant), has an
opening towards direction d. -/
def openingAt (t : PipeType) (rot : Nat) (d : Dir) : Bool :=
  t.baseOpenings.any fun b => decide (Dir.rotateCW^[rot % 4] b = d)

/-- One cell of the pipe grid, as declared in the plan (core/types.ts). -/
structure PipeCell where
  row : Nat
  col : Nat
  type : PipeType
  currentRotation : Nat
  isWatered : Bool
deriving DecidableEq, Repr

/-- A pipe grid is a row-major list of rows of cells. -/
abbrev Grid := List (List PipeCell)

/-- The cell stored at a (row, col) position, if the position is in bounds. -/
def cellAt (g : Grid) (p : Nat × Nat) : Option PipeCell :=
  (g[p.1]?).bind fun row => row[p.2]?

/-- Length of row r of the grid (0 when the row does not exist). -/
def rowLen (g : Grid) (r : Nat) : Nat :=
  ((g[r]?).getD []).length

/-- All in-bounds positions of the grid, as a list. -/
def allPosList (g : Grid) : List (Nat × Nat) :=
  (List.range g.length).flatMap fun r =>
    (List.range (rowLen g r)).map fun c => (r, c)

/-- All in-bounds positions of the grid, as a finite set. -/
def allPos (g : Grid) : Finset (Nat × Nat) :=
  (allPosList g).toFinset

/-- The neighbouring position one step in direction d, if it exists (the
grid has no negative coordinates). -/
def stepPos : Dir → Nat × Nat → Option (Nat × Nat)
  | .up, (r, c) => if r = 0 then none else some (r - 1, c)
  | .down, (r, c) => some (r + 1, c)
  | .left, (r, c) => if c = 0 then none else some (r, c - 1)
  | .right, (r, c) => some (r, c + 1)

/-- Whether the cell at position p (if any) has an opening towards d. -/
def openTowards (g : Grid) (p : Nat × Nat) (d : Dir) : Bool :=
  match cellAt g p with
  | some c => openingAt c.type c.currentRotation d
  | none => false

/-- Modelled from the spec: calculateFlow's traversal step, absent from the
repository.  Water flows from p to q when q is the neighbour of p in some
direction d, p has an opening towards d and q has the mutually aligned
opening back towards p. -/
def flowsTo (g : Grid) (p q : Nat × Nat) : Bool :=
  dirs.any fun d =>
    stepPos d p == some q && openTowards g p d && openTowards g q d.opposite

/-- Reachability from the source through an unbroken chain of mutually
aligned openings. -/
def Reachable (g : Grid) (src p : Nat × Nat) : Prop :=
  Relation.ReflTransGen (fun a b => flowsTo g a b = true) src p

/-- One expansion step of the traversal: add every in-bounds position that
receives water from an already watered position. -/
def expandWater (g : Grid) (w : Finset (Nat × Nat)) : Finset (Nat × Nat) :=
  w ∪ (allPos g).filter fun q => ∃ p ∈ w, flowsTo g p q = true

/-- The watered set: the expansion step iterated enough times to reach the
fixed point (one more than the number of grid positions). -/
def waterSet (g : Grid) (src : Nat × Nat) : Finset (Nat × Nat) :=
  (expandWater g)^[(allPos g).card + 1] {src}

/-- Whether the cell at position p is a pool. -/
def isPoolAt (g : Grid) (p : Nat × Nat) : Bool :=
  match cellAt g p with
  | some c => c.type == PipeType.P
  | none => false

/-- Re-mark one row of cells with the watered flags, starting at column c0
of row r. -/
def markRow (water : Finset (Nat × Nat)) (r : Nat) : Nat → List PipeCell → List PipeCell
  | _, [] => []
  | c0, cell :: rest =>
      { cell with isWatered := decide ((r, c0) ∈ water) } :: markRow water r (c0 + 1) rest

/-- Re-mark the whole grid with the watered flags, starting at row r0. -/
def markGrid (water : Finset (Nat × Nat)) : Nat → Grid → Grid
  | _, [] => []
  | r0, row :: rest => markRow water r0 0 row :: markGrid water (r0 + 1) rest

/-- The result record of calculateFlow (core/flow.ts). -/
structure FlowResult where
  newGrid : Grid
  poolsFilled : Nat
  isGameWon : Bool
deriving DecidableEq, Repr

/-- Modelled from the spec: calculateFlow (core/flow.ts is referenced by the
plan but absent from the repository).  A pure connectivity traversal from
the source outward following the aligned openings; every reached cell is
re-marked watered, poolsFilled counts the watered pools, and the game is won
exactly when poolsFilled reaches poolCount. -/
def calculateFlow (g : Grid) (src : Nat × Nat) (poolCount : Nat) : FlowResult :=
  let water := waterSet g src
  { newGrid := markGrid water 0 g
    poolsFilled := (water.filter fun p => isPoolAt g p = true).card
    isGameWon := (water.filter fun p => isPoolAt g p = true).card == poolCount }

/-- Whether the cell at position p is a pool that is marked watered. -/
def isWateredPoolAt (g : Grid) (p : Nat × Nat) : Bool :=
  match cellAt g p with
  | some c => c.type == PipeType.P && c.isWatered
  | none => false

/-- The watered pool positions of a grid, read off its own watered flags. -/
def wateredPoolCells (g : Grid) : Finset (Nat × Nat) :=
  (allPos g).filter fun p => isWateredPoolAt g p = true

/-- The two-cell grid of scenario A after the winning rotation: a straight
pipe (rotation 2, hence vertical) above a pool. -/
def gridSPdown : Grid :=
  [[{ row := 0, col := 0, type := PipeType.S, currentRotation := 2, isWatered := false }],
   [{ row := 1, col := 0, type := PipeType.P, currentRotation := 0, isWatered := false }]]

/-- The pool cell of gridSPdown as calculateFlow returns it: watered. -/
def wateredPoolCell : PipeCell :=
  { row := 1, col := 0, type := PipeType.P, currentRotation := 0, isWatered := true }

/-- The per-instance game state values from the plan (core/types.ts). -/
inductive GameState
  | playing
  | won
deriving DecidableEq, Repr

/-- The serializable game data of a pipes instance (core/types.ts). -/
structure PipesGameData where
  grid : Grid
  gameState : GameState
  poolsFilled : Nat
  poolCount : Nat
  source : Nat × Nat
deriving DecidableEq, Repr

/-- A level payload: the layout string of a level file. -/
structure LevelPayload where
  layout : String
deriving DecidableEq, Repr

/-- Parse-time failure of the flow engine. -/
inductive ParseError
  | MalformedLayout
deriving DecidableEq, Repr

/-- Piece type of a layout token, none for an unknown token. -/
def pieceOfToken : String → Option PipeType
  | "S" => some .S
  | "L" => some .L
  | "T" => some .T
  | "X" => some .X
  | "K1" => some .K1
  | "K2" => some .K2
  | "K3" => some .K3
  | "K4" => some .K4
  | "P" => some .P
  | _ => none

/-- Modelled from the spec: the deterministic seed hash of parsePipesGrid
(core/parser.ts is referenced by the plan but absent from the repository). -/
def hashString (s : String) : Nat :=
  s.data.foldl (fun h ch => (h * 31 + ch.toNat) % 4294967296) 5381

/-- Modelled from the spec: the seeded initial rotation of the cell at
(r, c), a pure function of the seed string and the position. -/
def seededRotation (seed : String) (r c : Nat) : Nat :=
  (hashString seed + 7 * r + 13 * c) % 4

/-- Split a character list at every occurrence of the separator. -/
def splitOnChar (sep : Char) : List Char → List (List Char)
  | [] => [[]]
  | ch :: rest =>
      let r := splitOnChar sep rest
      if ch = sep then [] :: r
      else
        match r with
        | [] => [[ch]]
        | w :: ws => (ch :: w) :: ws

/-- Split a layout into rows of whitespace-delimited tokens, ignoring blank
lines and repeated spaces. -/
def tokenizeLayout (layout : String) : List (List String) :=
  ((splitOnChar (Char.ofNat 10) layout.data).map fun line =>
    ((splitOnChar (Char.ofNat 32) line).map fun w => String.mk w).filter fun t => t ≠ "").filter
    fun row => row ≠ []

/-- The cell produced for one token, none for an unknown token. -/
def cellOfToken (seed : String) (r c : Nat) (tok : String) : Option PipeCell :=
  (pieceOfToken tok).map fun t =>
    { row := r, col := c, type := t, currentRotation := seededRotation seed r c,
      isWatered := false }

/-- Convert a token matrix to a grid of cells; none when a token is unknown. -/
def rowsToCells (seed : String) (rows : List (List String)) : Option Grid :=
  (rows.mapIdx fun r row => (row.mapIdx fun c tok => cellOfToken seed r c tok).mapM id).mapM id

/-- Number of pool cells of a grid. -/
def countPools (g : Grid) : Nat :=
  g.foldl (fun n row => n + row.countP fun cell => cell.type == PipeType.P) 0

/-- Modelled from the spec: parsePipesGrid (core/parser.ts is referenced by
the plan but absent from the repository).  Tokenizes the layout, rejects a
non-rectangular token grid or an unknown token with MalformedLayout, assigns
the seeded initial rotations, and designates the top-left cell as the
source. -/
def parsePipesGrid (layout : String) (seed : String) : Except ParseError PipesGameData :=
  let rows := tokenizeLayout layout
  if rows.isEmpty then .error .MalformedLayout
  else if !(rows.all fun row => row.length == (rows.headD []).length) then
    .error .MalformedLayout
  else
    match rowsToCells seed rows with
    | some grid =>
        .ok { grid := grid, gameState := .playing, poolsFilled := 0,
              poolCount := countPools grid, source := (0, 0) }
    | none => .error .MalformedLayout

/-- The seed actually used: the explicit one when given, otherwise the
derived identifier (the gameId). -/
def derivedSeed (explicitSeed : Option String) (gameId : String) : String :=
  explicitSeed.getD gameId

/-- The empty placeholder state used for a feed preview without data. -/
def emptyState : PipesGameData :=
  { grid := [], gameState := .playing, poolsFilled := 0, poolCount := 0, source := (0, 0) }

/-- The gameData initializer embedded from the plan (Logic.tsx, phase 6.3):
initialGameData takes precedence, then levelData parsed with the gameId as
seed, then the empty placeholder; a parse failure propagates. -/
def initGameData (initialGameData : Option PipesGameData) (levelData : Option LevelPayload)
    (gameId : String) : Except ParseError PipesGameData :=
  match initialGameData with
  | some d => .ok d
  | none =>
      match levelData with
      | some ld => parsePipesGrid ld.layout gameId
      | none => .ok emptyState

/-- Modelled from the spec: the single-cell rotation interaction; the tapped
cell's rotation becomes (current + 1) mod 4 and no other cell changes. -/
def rotateCellInGrid (g : Grid) (p : Nat × Nat) : Grid :=
  g.mapIdx fun r row =>
    row.mapIdx fun c cell =>
      if (r, c) = p then { cell with currentRotation := (cell.currentRotation + 1) % 4 }
      else cell

/-- The scenario A grid before the winning move: the straight pipe is turned
horizontally (rotation 1), pointing away from the pool below it. -/
def gridSPaway : Grid :=
  [[{ row := 0, col := 0, type := PipeType.S, currentRotation := 1, isWatered := false }],
   [{ row := 1, col := 0, type := PipeType.P, currentRotation := 0, isWatered := false }]]

/-- The per-mount status of the black-box state machine. -/
inductive Status
  | uninitialized
  | playing
  | completed
deriving DecidableEq, Repr

/-- A mounted game instance together with its emission counters: stateEmits
counts onStateChange emissions, endEmits counts onGameEnd invocations. -/
structure GameInstance where
  status : Status
  data : PipesGameData
  stateEmits : Nat
  endEmits : Nat
deriving DecidableEq, Repr

/-- Modelled from the spec: apply one accepted rotation interaction to the
game data, followed unconditionally by a full flow recomputation. -/
def applyMove (d : PipesGameData) (p : Nat × Nat) : PipesGameData :=
  let g := rotateCellInGrid d.grid p
  let res := calculateFlow g d.source d.poolCount
  { d with
    grid := res.newGrid
    poolsFilled := res.poolsFilled
    gameState := if res.isGameWon then GameState.won else GameState.playing }

/-- Modelled from the spec: the per-instance transition function of the
black-box contract (Logic.tsx is absent from the repository).  Completed is
absorbing: interactions are no-ops and nothing further is emitted.  An
accepted interaction emits one state update; the move that wins also fires
onGameEnd once and moves the instance to Completed. -/
def reduce (i : GameInstance) (p : Nat × Nat) : GameInstance :=
  match i.status with
  | .completed => i
  | .uninitialized => i
  | .playing =>
      let d := applyMove i.data p
      if d.gameState = GameState.won then
        { status := .completed, data := d, stateEmits := i.stateEmits + 1,
          endEmits := i.endEmits + 1 }
      else
        { status := .playing, data := d, stateEmits := i.stateEmits + 1,
          endEmits := i.endEmits }

/-- Mounting: the Uninitialized to Playing transition at first render, with
both emission counters at zero. -/
def mountInstance (d : PipesGameData) : GameInstance :=
  { status := .playing, data := d, stateEmits := 0, endEmits := 0 }

/-- Run a sequence of interactions against an instance. -/
def runMoves (i : GameInstance) (ms : List (Nat × Nat)) : GameInstance :=
  ms.foldl reduce i

/-- The onGameEnd counter invariant: the callback has fired exactly once if
the instance has completed and never otherwise. -/
def endInvariant (i : GameInstance) : Prop :=
  i.endEmits = if i.status = Status.completed then 1 else 0

/-- The restored game data of scenario A, one rotation away from the win. -/
def dataSP : PipesGameData :=
  { grid := gridSPaway, gameState := .playing, poolsFilled := 0, poolCount := 1,
    source := (0, 0) }

/-- Registry-time failures. -/
inductive RegistryError
  | DuplicateId
  | NotFound
deriving DecidableEq, Repr

/-- A manifest: the static metadata every plugin folder must provide. -/
structure Manifest where
  id : String
  title : String
  difficultyLevels : List String
deriving DecidableEq, Repr

/-- A registered game descriptor: the component handle and the level loader
are modelled by their names, next to the manifest, as in the registerGame
call of the plan. -/
structure GameDescriptor where
  component : String
  manifest : Manifest
  levelLoader : String
deriving DecidableEq, Repr

/-- Modelled from the spec: the in-memory registry, an ordered catalog of
(id, descriptor) pairs (game-registry.ts is referenced by the plan but
absent from the repository). -/
abbrev Registry (α : Type) : Type := List (String × α)

/-- Modelled from the spec: registerGame; registering an already present id
is an error, never a silent overwrite, otherwise the descriptor is appended
in registration order. -/
def registerGame {α : Type} (id : String) (desc : α) (reg : Registry α) :
    Except RegistryError (Registry α) :=
  if reg.any fun e => e.1 == id then .error .DuplicateId
  else .ok (reg ++ [(id, desc)])

/-- Modelled from the spec: Registry.get; the stored descriptor, or NotFound. -/
def getGame {α : Type} (id : String) (reg : Registry α) : Except RegistryError α :=
  match reg.find? fun e => e.1 == id with
  | some e => .ok e.2
  | none => .error .NotFound

/-- Feed-time failure. -/
inductive FeedError
  | NoGamesRegistered
deriving DecidableEq, Repr

/-- The totally ordered difficulty levels. -/
inductive Difficulty
  | easy
  | medium
  | hard
  | extreme
deriving DecidableEq, Repr

/-- One unit of feed content. -/
structure FeedItem where
  id : String
  gameId : String
  difficulty : Difficulty
  levelNumber : Nat
deriving DecidableEq, Repr

/-- Modelled from the spec: the difficulty progression; harder items are
served only after enough completed history items. -/
def chooseDifficulty (completed : Nat) : Difficulty :=
  if completed < 3 then .easy else if completed < 6 then .medium else .hard

/-- The game id shared by the last two history items, if they agree. -/
def repeatedLast (history : List FeedItem) : Option String :=
  match history.reverse with
  | a :: b :: _ => if a.gameId = b.gameId then some a.gameId else none
  | _ => none

/-- A uniform pick from the candidate list, driven by the random draw. -/
def pick (l : List String) (rand : Nat) : Option String :=
  l[rand % l.length]?

/-- The candidate ids: when the last two history items repeat one game id,
that id is excluded unless excluding it would leave no candidate. -/
def feedCandidates (history : List FeedItem) (ids : List String) : List String :=
  match repeatedLast history with
  | some g =>
      let f := ids.filter fun i => i ≠ g
      if f.isEmpty then ids else f
  | none => ids

/-- Modelled from the spec: FeedAlgorithm.next (no implementation exists in
the repository).  Avoids immediate repetition of a game id when another id
is registered, follows the declared difficulty progression, degrades to a
uniform random choice, and fails with NoGamesRegistered on an empty
registry. -/
def nextFeedItem (history : List FeedItem) (reg : Registry GameDescriptor)
    (rand : Nat) : Except FeedError FeedItem :=
  match pick (feedCandidates history (reg.map fun e => e.1)) rand with
  | some gid =>
      .ok { id := gid ++ "#" ++ toString history.length, gameId := gid,
            difficulty := chooseDifficulty history.length,
            levelNumber := history.length + 1 }
  | none => .error .NoGamesRegistered

/-- A sample manifest for the feed witness. -/
def manifestA : Manifest :=
  { id := "alpha", title := "Alpha", difficultyLevels := ["easy"] }

/-- A sample descriptor for the feed witness. -/
def descA : GameDescriptor :=
  { component := "AlphaComponent", manifest := manifestA, levelLoader := "alphaLevels" }

/-- A second sample manifest for the feed witness. -/
def manifestB : Manifest :=
  { id := "beta", title := "Beta", difficultyLevels := ["easy"] }

/-- A second sample descriptor for the feed witness. -/
def descB : GameDescriptor :=
  { component := "BetaComponent", manifest := manifestB, levelLoader := "betaLevels" }

/-- A history item serving game alpha, used by the feed witness. -/
def itemA (n : Nat) : FeedItem :=
  { id := "alpha#" ++ toString n, gameId := "alpha", difficulty := .easy, levelNumber := n }

/-- Scan-time failures. -/
inductive ScanError
  | ManifestMissing
  | ManifestInvalid
  | ComponentMissing
deriving DecidableEq, Repr

/-- A plugin folder as the scanner sees it: a name, possibly a manifest, and
possibly an exported entry point. -/
structure PluginFolder where
  name : String
  manifest : Option Manifest
  hasComponent : Bool
deriving DecidableEq, Repr

/-- Modelled from the spec: manifest validation; the required fields id,
title and difficultyLevels must be present and non-degenerate. -/
def validManifest (m : Manifest) : Bool :=
  m.id ≠ "" && m.title ≠ "" && !m.difficultyLevels.isEmpty

/-- The (id, manifest, component-handle) tuple the scanner produces per
plugin. -/
structure ScannedPlugin where
  id : String
  manifest : Manifest
  componentName : String
deriving DecidableEq, Repr

/-- Modelled from the spec: scanning one folder; ManifestMissing without a
manifest, ManifestInvalid on a malformed one, ComponentMissing without an
entry point, otherwise the descriptor tuple. -/
def scanFolder (f : PluginFolder) : Except ScanError ScannedPlugin :=
  match f.manifest with
  | none => .error .ManifestMissing
  | some m =>
      if !validManifest m then .error .ManifestInvalid
      else if !f.hasComponent then .error .ComponentMissing
      else .ok { id := m.id, manifest := m, componentName := f.name }

/-- Modelled from the spec: the scan over all folders; each folder is
scanned in isolation, failures are collected per folder and successes form
the best-effort catalog. -/
def scanAll (folders : List PluginFolder) :
    List (String × ScanError) × List ScannedPlugin :=
  (folders.filterMap fun f =>
      match scanFolder f with
      | .error e => some (f.name, e)
      | .ok _ => none,
   folders.filterMap fun f => (scanFolder f).toOption)

/-- A valid plugin folder for the scanner witness. -/
def folderGood : PluginFolder :=
  { name := "pipes", manifest := some manifestA, hasComponent := true }

/-- A folder without a manifest for the scanner witness. -/
def folderBroken : PluginFolder :=
  { name := "broken", manifest := none, hasComponent := true }

/-- The difficulty tokens used in level-map keys. -/
def difficultyKey : Difficulty → String
  | .easy => "easy"
  | .medium => "medium"
  | .hard => "hard"
  | .extreme => "extreme"

/-- The level-map key of the plan (levels/index.ts implementation pattern). -/
def levelKey (d : Difficulty) (n : Nat) : String :=
  difficultyKey d ++ "-" ++ toString n

/-- The level loader embedded from the plan (levels/index.ts): look the key
up in the static level map and return the layout, or null when no such
level exists. -/
def getPipesLevel (levelMap : List (String × LevelPayload)) (d : Difficulty)
    (n : Nat) : Option LevelPayload :=
  match levelMap.find? fun e => e.1 == levelKey d n with
  | some e => some { layout := e.2.layout }
  | none => none

/-- The result values of the onGameEnd callback, embedded from the plan's
BaseGameProps and PipesGameProps interfaces. -/
inductive GameResult
  | win
  | loss
  | draw
deriving DecidableEq, Repr

/-- The completion payload handed to onGameEnd next to the result. -/
structure CompletionData where
  completionTime : Nat
  result : GameResult
deriving DecidableEq, Repr

theorem subset_expandWater (g : Grid) (w : Finset (Nat × Nat)) : w ⊆ expandWater g w :=
  Finset.subset_union_left

theorem expandWater_subset (g : Grid) (w : Finset (Nat × Nat)) :
    expandWater g w ⊆ w ∪ allPos g :=
  Finset.union_subset_union_right (Finset.filter_subset _ _)

theorem iter_succ_eq (g : Grid) (src : Nat × Nat) (k : Nat) :
    (expandWater g)^[k + 1] {src} = expandWater g ((expandWater g)^[k] {src}) :=
  Function.iterate_succ_apply' _ _ _

theorem iter_mono (g : Grid) (src : Nat × Nat) {k m : Nat} (h : k ≤ m) :
    (expandWater g)^[k] {src} ⊆ (expandWater g)^[m] {src} := by
  induction m, h using Nat.le_induction with
  | base => exact subset_rfl
  | succ n hn ih =>
      refine ih.trans ?_
      rw [iter_succ_eq]
      exact subset_expandWater _ _

theorem iter_subset (g : Grid) (src : Nat × Nat) (k : Nat) :
    (expandWater g)^[k] {src} ⊆ {src} ∪ allPos g := by
  induction k with
  | zero => simp
  | succ n ih =>
      rw [iter_succ_eq]
      refine (expandWater_subset _ _).trans ?_
      exact Finset.union_subset ih Finset.subset_union_right

theorem iter_stable (g : Grid) (src : Nat × Nat) {k : Nat}
    (h : expandWater g ((expandWater g)^[k] {src}) = (expandWater g)^[k] {src}) :
    ∀ m, k ≤ m → (expandWater g)^[m] {src} = (expandWater g)^[k] {src} := by
  intro m hm
  induction m, hm using Nat.le_induction with
  | base => rfl
  | succ n hn ih => rw [iter_succ_eq, ih, h]

theorem exists_stable (g : Grid) (src : Nat × Nat) :
    ∃ k ≤ (allPos g).card,
      expandWater g ((expandWater g)^[k] {src}) = (expandWater g)^[k] {src} := by
  by_contra hcon
  push_neg at hcon
  have grow : ∀ k, k ≤ (allPos g).card + 1 →
      k + 1 ≤ ((expandWater g)^[k] ({src} : Finset (Nat × Nat))).card := by
    intro k
    induction k with
    | zero => intro _; simp
    | succ n ih =>
        intro hn
        have h1 : n ≤ (allPos g).card := by omega
        have hne := hcon n h1
        have hss : (expandWater g)^[n] ({src} : Finset (Nat × Nat)) ⊂
            (expandWater g)^[n + 1] {src} := by
          refine HasSubset.Subset.ssubset_of_ne (iter_mono g src (by omega)) ?_
          rw [iter_succ_eq]
          exact fun he => hne he.symm
        have h2 := Finset.card_lt_card hss
        have h3 := ih (by omega)
        omega
  have h2 := grow ((allPos g).card + 1) le_rfl
  have h3 := Finset.card_le_card (iter_subset g src ((allPos g).card + 1))
  have h4 : (({src} : Finset (Nat × Nat)) ∪ allPos g).card ≤ 1 + (allPos g).card := by
    refine (Finset.card_union_le _ _).trans ?_
    simp
  omega

theorem expandWater_waterSet (g : Grid) (src : Nat × Nat) :
    expandWater g (waterSet g src) = waterSet g src := by
  obtain ⟨k, hk, hfix⟩ := exists_stable g src
  have h1 := iter_stable g src hfix ((allPos g).card + 1) (by omega)
  unfold waterSet
  rw [h1, hfix]

theorem src_mem_waterSet (g : Grid) (src : Nat × Nat) : src ∈ waterSet g src := by
  have h0 : src ∈ (expandWater g)^[0] ({src} : Finset (Nat × Nat)) := by simp
  exact iter_mono g src (Nat.zero_le _) h0

theorem openTowards_isSome {g : Grid} {q : Nat × Nat} {d : Dir}
    (h : openTowards g q d = true) : (cellAt g q).isSome := by
  unfold openTowards at h
  cases hc : cellAt g q with
  | none => rw [hc] at h; exact absurd h (by simp)
  | some c => simp

theorem flowsTo_isSome {g : Grid} {p q : Nat × Nat}
    (h : flowsTo g p q = true) : (cellAt g q).isSome := by
  unfold flowsTo at h
  rw [List.any_eq_true] at h
  obtain ⟨d, _, hd⟩ := h
  rw [Bool.and_eq_true, Bool.and_eq_true] at hd
  exact openTowards_isSome hd.2

theorem mem_allPos {g : Grid} {p : Nat × Nat} :
    p ∈ allPos g ↔ (cellAt g p).isSome := by
  obtain ⟨r, c⟩ := p
  constructor
  · intro h
    rw [allPos, List.mem_toFinset, allPosList, List.mem_flatMap] at h
    obtain ⟨a, ha, hmem⟩ := h
    rw [List.mem_map] at hmem
    obtain ⟨b, hb, hab⟩ := hmem
    obtain ⟨rfl, rfl⟩ : a = r ∧ b = c := by
      constructor <;> [exact congrArg Prod.fst hab; exact congrArg Prod.snd hab]
    rw [List.mem_range] at ha hb
    unfold cellAt rowLen at *
    rw [List.getElem?_eq_getElem ha] at hb ⊢
    simp only [Option.getD_some] at hb
    simp [List.getElem?_eq_getElem hb]
  · intro h
    rw [allPos, List.mem_toFinset, allPosList, List.mem_flatMap]
    unfold cellAt at h
    cases hrow : (g[r]?) with
    | none => rw [hrow] at h; exact absurd h (by simp)
    | some row =>
        rw [hrow] at h
        simp only [Option.some_bind] at h
        have hr : r < g.length := by
          by_contra hr
          rw [List.getElem?_eq_none (by omega)] at hrow
          exact Option.noConfusion hrow
        have hc : c < row.length := by
          by_contra hc
          rw [List.getElem?_eq_none (by omega)] at h
          exact absurd h (by simp)
        refine ⟨r, List.mem_range.mpr hr, ?_⟩
        rw [List.mem_map]
        refine ⟨c, List.mem_range.mpr ?_, rfl⟩
        unfold rowLen
        rw [hrow]
        simpa using hc

theorem waterSet_closed (g : Grid) (src p q : Nat × Nat)
    (hp : p ∈ waterSet g src) (hf : flowsTo g p q = true) : q ∈ waterSet g src := by
  have hq : q ∈ allPos g := mem_allPos.mpr (flowsTo_isSome hf)
  have hmem : q ∈ expandWater g (waterSet g src) := by
    unfold expandWater
    exact Finset.mem_union_right _ (Finset.mem_filter.mpr ⟨hq, p, hp, hf⟩)
  rwa [expandWater_waterSet] at hmem

theorem iter_sound (g : Grid) (src : Nat × Nat) :
    ∀ k p, p ∈ (expandWater g)^[k] ({src} : Finset (Nat × Nat)) → Reachable g src p := by
  intro k
  induction k with
  | zero =>
      intro p hp
      simp only [Function.iterate_zero_apply, Finset.mem_singleton] at hp
      subst hp
      exact Relation.ReflTransGen.refl
  | succ n ih =>
      intro p hp
      rw [iter_succ_eq] at hp
      unfold expandWater at hp
      rcases Finset.mem_union.mp hp with h | h
      · exact ih p h
      · obtain ⟨-, q, hq, hqp⟩ := Finset.mem_filter.mp h
        exact Relation.ReflTransGen.tail (ih q hq) hqp

theorem mem_waterSet_iff {g : Grid} {src p : Nat × Nat} :
    p ∈ waterSet g src ↔ Reachable g src p := by
  constructor
  · exact fun h => iter_sound g src _ p h
  · intro h
    induction h with
    | refl => exact src_mem_waterSet g src
    | tail hab hbc ih => exact waterSet_closed g src _ _ ih hbc

theorem markRow_getElem (water : Finset (Nat × Nat)) (r : Nat) :
    ∀ (c0 i : Nat) (row : List PipeCell),
      (markRow water r c0 row)[i]? =
        (row[i]?).map fun cell =>
          { cell with isWatered := decide ((r, c0 + i) ∈ water) } := by
  intro c0 i row
  induction row generalizing c0 i with
  | nil => simp [markRow]
  | cons cell rest ih =>
      cases i with
      | zero => simp [markRow]
      | succ j =>
          simp only [markRow, List.getElem?_cons_succ, ih (c0 + 1) j]
          have : c0 + (j + 1) = c0 + 1 + j := by omega
          rw [this]

theorem markGrid_getElem (water : Finset (Nat × Nat)) :
    ∀ (r0 i : Nat) (g : Grid),
      (markGrid water r0 g)[i]? = (g[i]?).map fun row => markRow water (r0 + i) 0 row := by
  intro r0 i g
  induction g generalizing r0 i with
  | nil => simp [markGrid]
  | cons row rest ih =>
      cases i with
      | zero => simp [markGrid]
      | succ j =>
          simp only [markGrid, List.getElem?_cons_succ, ih (r0 + 1) j]
          have : r0 + (j + 1) = r0 + 1 + j := by omega
          rw [this]

theorem cellAt_markGrid (water : Finset (Nat × Nat)) (g : Grid) (p : Nat × Nat) :
    cellAt (markGrid water 0 g) p =
      (cellAt g p).map fun cell => { cell with isWatered := decide (p ∈ water) } := by
  obtain ⟨r, c⟩ := p
  unfold cellAt
  rw [markGrid_getElem]
  cases g[r]? with
  | none => simp
  | some row => simp [markRow_getElem]

theorem markRow_length (water : Finset (Nat × Nat)) (r : Nat) :
    ∀ (c0 : Nat) (row : List PipeCell), (markRow water r c0 row).length = row.length := by
  intro c0 row
  induction row generalizing c0 with
  | nil => rfl
  | cons cell rest ih => simp [markRow, ih]

theorem markGrid_length (water : Finset (Nat × Nat)) :
    ∀ (r0 : Nat) (g : Grid), (markGrid water r0 g).length = g.length := by
  intro r0 g
  induction g generalizing r0 with
  | nil => rfl
  | cons row rest ih => simp [markGrid, ih]

theorem rowLen_markGrid (water : Finset (Nat × Nat)) (g : Grid) (r : Nat) :
    rowLen (markGrid water 0 g) r = rowLen g r := by
  unfold rowLen
  rw [markGrid_getElem]
  cases g[r]? with
  | none => simp
  | some row => simp [markRow_length]

theorem allPos_markGrid (water : Finset (Nat × Nat)) (g : Grid) :
    allPos (markGrid water 0 g) = allPos g := by
  unfold allPos allPosList
  rw [markGrid_length]
  congr 1
  refine List.flatMap_congr ?_
  intro r _
  rw [rowLen_markGrid]

theorem isPoolAt_isSome {g : Grid} {p : Nat × Nat}
    (h : isPoolAt g p = true) : (cellAt g p).isSome := by
  unfold isPoolAt at h
  cases hc : cellAt g p with
  | none => rw [hc] at h; exact absurd h (by simp)
  | some c => simp

theorem isWateredPoolAt_markGrid (water : Finset (Nat × Nat)) (g : Grid) (p : Nat × Nat) :
    isWateredPoolAt (markGrid water 0 g) p = (isPoolAt g p && decide (p ∈ water)) := by
  unfold isWateredPoolAt isPoolAt
  rw [cellAt_markGrid]
  cases cellAt g p with
  | none => rfl
  | some c => rfl

theorem wateredPoolCells_calculateFlow (g : Grid) (src : Nat × Nat) :
    wateredPoolCells (markGrid (waterSet g src) 0 g) =
      (waterSet g src).filter fun p => isPoolAt g p = true := by
  ext p
  rw [wateredPoolCells, Finset.mem_filter, Finset.mem_filter, allPos_markGrid,
    isWateredPoolAt_markGrid]
  constructor
  · rintro ⟨hp, hflag⟩
    rw [Bool.and_eq_true] at hflag
    exact ⟨by simpa using hflag.2, hflag.1⟩
  · rintro ⟨hw, hpool⟩
    refine ⟨mem_allPos.mpr (isPoolAt_isSome hpool), ?_⟩
    rw [Bool.and_eq_true]
    exact ⟨hpool, by simpa using hw⟩

theorem calculateFlow_newGrid (g : Grid) (src : Nat × Nat) (pc : Nat) :
    (calculateFlow g src pc).newGrid = markGrid (waterSet g src) 0 g := rfl

theorem calculateFlow_poolsFilled (g : Grid) (src : Nat × Nat) (pc : Nat) :
    (calculateFlow g src pc).poolsFilled =
      ((waterSet g src).filter fun p => isPoolAt g p = true).card := rfl

theorem calculateFlow_isGameWon (g : Grid) (src : Nat × Nat) (pc : Nat) :
    (calculateFlow g src pc).isGameWon =
      (((waterSet g src).filter fun p => isPoolAt g p = true).card == pc) := rfl

/-- C1: for every grid, source and pool count, calculateFlow marks a cell
watered exactly when the cell is reachable from the source through a chain of
mutually aligned pipe openings; the returned poolsFilled equals the number of
watered pool cells of the returned grid; and isGameWon holds exactly when
poolsFilled equals poolCount. -/
theorem calculateFlow_correct (g : Grid) (src : Nat × Nat) (poolCount : Nat) :
    (∀ p cell, cellAt (calculateFlow g src poolCount).newGrid p = some cell →
      (cell.isWatered = true ↔ Reachable g src p)) ∧
    (calculateFlow g src poolCount).poolsFilled =
      (wateredPoolCells (calculateFlow g src poolCount).newGrid).card ∧
    ((calculateFlow g src poolCount).isGameWon = true ↔
      (calculateFlow g src poolCount).poolsFilled = poolCount) := by
  refine ⟨?_, ?_, ?_⟩
  · intro p cell hcell
    rw [calculateFlow_newGrid, cellAt_markGrid] at hcell
    cases hc : cellAt g p with
    | none => rw [hc] at hcell; exact absurd hcell (by simp)
    | some c =>
        rw [hc, Option.map_some'] at hcell
        have hw : cell.isWatered = decide (p ∈ waterSet g src) := by
          rw [← Option.some_inj.mp hcell]
        rw [hw]
        simp [mem_waterSet_iff]
  · rw [calculateFlow_poolsFilled, calculateFlow_newGrid, wateredPoolCells_calculateFlow]
  · rw [calculateFlow_isGameWon, calculateFlow_poolsFilled]
    exact beq_iff_eq

/-- Witness for C1: on the concrete two-cell grid, the pool cell returned by
calculateFlow is watered, and the theorem ties that flag to reachability. -/
theorem calculateFlow_correct_witness :
    cellAt (calculateFlow gridSPdown (0, 0) 1).newGrid (1, 0) = some wateredPoolCell ∧
    (wateredPoolCell.isWatered = true ↔ Reachable gridSPdown (0, 0) (1, 0)) :=
  ⟨by decide,
   (calculateFlow_correct gridSPdown (0, 0) 1).1 (1, 0) wateredPoolCell (by decide)⟩

/-- C2: parsing is deterministic; two calls to parsePipesGrid with the same
layout and the same seed (explicit, or derived from the gameId when no
explicit seed is given) return identical grids, piece types, rotations and
source. -/
theorem parsePipesGrid_deterministic (L1 L2 : String) (s1 s2 : Option String)
    (gid1 gid2 : String) (hL : L1 = L2) (hs : s1 = s2) (hg : gid1 = gid2) :
    parsePipesGrid L1 (derivedSeed s1 gid1) = parsePipesGrid L2 (derivedSeed s2 gid2) := by
  rw [hL, hs, hg]

/-- Witness for C2: two calls on the layout of scenario A with the seed
derived from the same gameId agree. -/
theorem parsePipesGrid_deterministic_witness :
    parsePipesGrid "S\nP" (derivedSeed none "game-1") =
      parsePipesGrid "S\nP" (derivedSeed none "game-1") :=
  parsePipesGrid_deterministic "S\nP" "S\nP" none none "game-1" "game-1" rfl rfl rfl

/-- C4: the initializer precedence embedded from the plan.  When
initialGameData is present it is used as-is and levelData has no effect;
otherwise a present levelData is parsed seeded by the gameId; otherwise the
empty placeholder is used. -/
theorem initGameData_precedence (d : PipesGameData) (ld : Option LevelPayload)
    (ld2 : LevelPayload) (gid : String) :
    initGameData (some d) ld gid = .ok d ∧
    (∀ ldo : Option LevelPayload, initGameData (some d) ldo gid = initGameData (some d) ld gid) ∧
    initGameData none (some ld2) gid = parsePipesGrid ld2.layout gid ∧
    initGameData none none gid = .ok emptyState :=
  ⟨rfl, fun _ => rfl, rfl, rfl⟩

/-- C5: on the two-cell layout of a straight pipe above a pool with the
source at the straight piece, the flow wins nothing while the pipe points
away from the pool; rotating that one cell once by (current + 1) mod 4 makes
an opening face the pool, and the flow reports the game won with one filled
pool. -/
theorem scenarioA :
    (calculateFlow gridSPaway (0, 0) 1).isGameWon = false ∧
    (calculateFlow gridSPaway (0, 0) 1).poolsFilled = 0 ∧
    (calculateFlow (rotateCellInGrid gridSPaway (0, 0)) (0, 0) 1).isGameWon = true ∧
    (calculateFlow (rotateCellInGrid gridSPaway (0, 0)) (0, 0) 1).poolsFilled = 1 := by
  decide

theorem reduce_completed {i : GameInstance} (h : i.status = Status.completed)
    (p : Nat × Nat) : reduce i p = i := by
  unfold reduce
  rw [h]

theorem runMoves_completed {i : GameInstance} (h : i.status = Status.completed)
    (ms : List (Nat × Nat)) : runMoves i ms = i := by
  induction ms with
  | nil => rfl
  | cons m rest ih =>
      unfold runMoves at *
      rw [List.foldl_cons, reduce_completed h, ih]

theorem reduce_endInvariant {i : GameInstance} (h : endInvariant i) (p : Nat × Nat) :
    endInvariant (reduce i p) := by
  unfold endInvariant at *
  unfold reduce
  cases hs : i.status with
  | completed => rw [hs] at h; simpa [hs] using h
  | uninitialized => rw [hs] at h; simpa [hs] using h
  | playing =>
      rw [hs] at h
      simp only [if_neg (by simp : ¬Status.playing = Status.completed)] at h
      by_cases hw : (applyMove i.data p).gameState = GameState.won
      · simp [hw, h]
      · simp [hw, h]

theorem runMoves_endInvariant {i : GameInstance} (h : endInvariant i)
    (ms : List (Nat × Nat)) : endInvariant (runMoves i ms) := by
  induction ms generalizing i with
  | nil => exact h
  | cons m rest ih =>
      unfold runMoves at *
      rw [List.foldl_cons]
      exact ih (reduce_endInvariant h m)

/-- C3: per mounted instance, the count of onGameEnd invocations equals one
exactly when the instance has reached Completed (so it fires exactly once, at
the transition, and never exceeds one), and once Completed every further
interaction sequence leaves the instance unchanged: the state stays
Completed and no further onStateChange or onGameEnd emission occurs. -/
theorem onGameEnd_once (d : PipesGameData) (ms ms2 : List (Nat × Nat)) :
    ((runMoves (mountInstance d) ms).endEmits =
      if (runMoves (mountInstance d) ms).status = Status.completed then 1 else 0) ∧
    (runMoves (mountInstance d) ms).endEmits ≤ 1 ∧
    ((runMoves (mountInstance d) ms).status = Status.completed →
      runMoves (runMoves (mountInstance d) ms) ms2 = runMoves (mountInstance d) ms) := by
  have hinv : endInvariant (runMoves (mountInstance d) ms) :=
    runMoves_endInvariant (by simp [endInvariant, mountInstance]) ms
  refine ⟨hinv, ?_, fun h => runMoves_completed h ms2⟩
  rw [endInvariant] at hinv
  rw [hinv]
  split <;> omega

/-- Witness for C3: the concrete winning interaction completes the instance,
after which two further taps change nothing. -/
theorem onGameEnd_once_witness :
    (runMoves (mountInstance dataSP) [(0, 0)]).status = Status.completed ∧
    runMoves (runMoves (mountInstance dataSP) [(0, 0)]) [(0, 0), (1, 0)] =
      runMoves (mountInstance dataSP) [(0, 0)] :=
  ⟨by decide, (onGameEnd_once dataSP [(0, 0)] [(0, 0), (1, 0)]).2.2 (by decide)⟩

/-- C6: registering a present id fails with DuplicateId (the registry is not
modified: the call only returns an error); registering a fresh id appends the
descriptor, after which get returns exactly that descriptor under that id
while every other id resolves as before; and get of an id never registered
fails with NotFound. -/
theorem registry_contract {α : Type} (reg : Registry α) (id : String) (d : α) :
    ((∃ e ∈ reg, e.1 = id) → registerGame id d reg = .error .DuplicateId) ∧
    (¬(∃ e ∈ reg, e.1 = id) →
      registerGame id d reg = .ok (reg ++ [(id, d)]) ∧
      getGame id (reg ++ [(id, d)]) = .ok d ∧
      (∀ id2, id2 ≠ id → getGame id2 (reg ++ [(id, d)]) = getGame id2 reg)) ∧
    (¬(∃ e ∈ reg, e.1 = id) → getGame id reg = .error .NotFound) := by
  have hfind : ¬(∃ e ∈ reg, e.1 = id) →
      (reg.find? fun e => e.1 == id) = none := by
    intro hno
    rw [List.find?_eq_none]
    intro x hx hbeq
    exact hno ⟨x, hx, by simpa using hbeq⟩
  refine ⟨?_, ?_, ?_⟩
  · rintro ⟨e, he, heid⟩
    unfold registerGame
    rw [if_pos]
    rw [List.any_eq_true]
    exact ⟨e, he, by simpa using heid⟩
  · intro hno
    refine ⟨?_, ?_, ?_⟩
    · unfold registerGame
      rw [if_neg]
      rw [List.any_eq_true]
      rintro ⟨e, he, hbeq⟩
      exact hno ⟨e, he, by simpa using hbeq⟩
    · unfold getGame
      rw [List.find?_append, hfind hno]
      simp [List.find?]
    · intro id2 hne
      unfold getGame
      rw [List.find?_append]
      have hbeq : (id == id2) = false := by
        simp only [beq_eq_false_iff_ne, ne_eq]
        exact Ne.symm hne
      have hsingle : ([(id, d)].find? fun e => e.1 == id2) = none := by
        simp [List.find?, hbeq]
      rw [hsingle]
      cases reg.find? fun e => e.1 == id2 <;> rfl
  · intro hno
    unfold getGame
    rw [hfind hno]

/-- Witness for C6: on a one-entry registry, re-registering the present id
fails with DuplicateId, an id never registered is NotFound, and after a
fresh registration the descriptor is retrieved exactly. -/
theorem registry_contract_witness :
    registerGame "pipes" 2 ([("pipes", 1)] : Registry Nat) = .error .DuplicateId ∧
    getGame "sudoku" ([("pipes", 1)] : Registry Nat) = .error .NotFound ∧
    getGame "sudoku" ([("pipes", 1), ("sudoku", 2)] : Registry Nat) = .ok 2 :=
  ⟨(registry_contract [("pipes", 1)] "pipes" 2).1 ⟨("pipes", 1), by decide, rfl⟩,
   (registry_contract [("pipes", 1)] "sudoku" 2).2.2 (by decide),
   ((registry_contract [("pipes", 1)] "sudoku" 2).2.1 (by decide)).2.1⟩

theorem pick_eq_none_iff (l : List String) (rand : Nat) :
    pick l rand = none ↔ l = [] := by
  unfold pick
  constructor
  · intro h
    cases l with
    | nil => rfl
    | cons a rest =>
        have hlt : rand % (a :: rest).length < (a :: rest).length :=
          Nat.mod_lt _ (by simp)
        rw [List.getElem?_eq_getElem hlt] at h
        exact Option.noConfusion h
  · rintro rfl
    rfl

theorem pick_mem {l : List String} {rand : Nat} {x : String}
    (h : pick l rand = some x) : x ∈ l := by
  unfold pick at h
  rcases List.getElem?_eq_some.mp h with ⟨hlt, hx⟩
  exact hx ▸ List.getElem_mem hlt

theorem feedCandidates_eq_nil_iff (history : List FeedItem) (ids : List String) :
    feedCandidates history ids = [] ↔ ids = [] := by
  unfold feedCandidates
  cases repeatedLast history with
  | none => exact Iff.rfl
  | some g =>
      simp only []
      by_cases hf : (ids.filter fun i => i ≠ g).isEmpty
      · rw [if_pos hf]
      · rw [if_neg hf]
        rw [List.isEmpty_iff] at hf
        constructor
        · intro h; exact absurd h hf
        · rintro rfl
          exact absurd rfl hf

/-- C7: whenever the registry holds at least two (distinct-id) games and the
last two history items repeat one game id, nextFeedItem succeeds with a
different game id; and nextFeedItem fails with NoGamesRegistered exactly
when the registry snapshot is empty. -/
theorem nextFeedItem_spec (history : List FeedItem) (reg : Registry GameDescriptor)
    (rand : Nat) (A : String) :
    (2 ≤ reg.length → (reg.map fun e => e.1).Nodup → repeatedLast history = some A →
      ∃ item, nextFeedItem history reg rand = .ok item ∧ item.gameId ≠ A) ∧
    (nextFeedItem history reg rand = .error .NoGamesRegistered ↔ reg = []) := by
  constructor
  · intro h2 hnd hrep
    have hfne : (reg.map fun e => e.1).filter (fun i => i ≠ A) ≠ [] := by
      intro hnil
      rw [List.filter_eq_nil_iff] at hnil
      match hr : reg with
      | [] => exact absurd h2 (by simp)
      | [e] => exact absurd h2 (by simp)
      | e1 :: e2 :: rest =>
          have h1 : e1.1 = A := by
            have := hnil e1.1 (by simp)
            simpa using this
          have hA2 : e2.1 = A := by
            have := hnil e2.1 (by simp)
            simpa using this
          rw [List.map_cons, List.map_cons, List.nodup_cons] at hnd
          exact hnd.1 (by simp [h1, hA2])
    have hcand : feedCandidates history (reg.map fun e => e.1) =
        (reg.map fun e => e.1).filter (fun i => i ≠ A) := by
      unfold feedCandidates
      rw [hrep]
      simp only []
      rw [if_neg (by rwa [List.isEmpty_iff])]
    obtain ⟨gid, hgid⟩ :
        ∃ gid, pick (feedCandidates history (reg.map fun e => e.1)) rand = some gid := by
      cases hp : pick (feedCandidates history (reg.map fun e => e.1)) rand with
      | none =>
          rw [pick_eq_none_iff, hcand] at hp
          exact absurd hp hfne
      | some gid => exact ⟨gid, rfl⟩
    have hmem := pick_mem hgid
    rw [hcand] at hmem
    have hne : gid ≠ A := by
      have := (List.mem_filter.mp hmem).2
      simpa using this
    have heq : nextFeedItem history reg rand =
        .ok { id := gid ++ "#" ++ toString history.length, gameId := gid,
              difficulty := chooseDifficulty history.length,
              levelNumber := history.length + 1 } := by
      unfold nextFeedItem
      rw [hgid]
    exact ⟨_, heq, hne⟩
  · constructor
    · intro h
      unfold nextFeedItem at h
      cases hp : pick (feedCandidates history (reg.map fun e => e.1)) rand with
      | some gid => rw [hp] at h; exact Except.noConfusion h
      | none =>
          rw [pick_eq_none_iff, feedCandidates_eq_nil_iff, List.map_eq_nil_iff] at hp
          exact hp
    · rintro rfl
      have hp : pick (feedCandidates history (List.map (fun e => e.1)
          ([] : Registry GameDescriptor))) rand = none :=
        (pick_eq_none_iff _ _).mpr ((feedCandidates_eq_nil_iff _ _).mpr rfl)
      unfold nextFeedItem
      rw [hp]

/-- Witness for C7: with games alpha and beta registered and a history whose
last two items are both alpha, the next item is not alpha, and the call does
not report an empty registry. -/
theorem nextFeedItem_spec_witness :
    (∃ item,
      nextFeedItem [itemA 1, itemA 2] [("alpha", descA), ("beta", descB)] 0 = .ok item ∧
      item.gameId ≠ "alpha") ∧
    ¬(nextFeedItem [itemA 1, itemA 2] [("alpha", descA), ("beta", descB)] 0 =
        .error .NoGamesRegistered) := by
  have h := nextFeedItem_spec [itemA 1, itemA 2]
    [("alpha", descA), ("beta", descB)] 0 "alpha"
  refine ⟨h.1 (by decide) (by decide) (by decide), fun he => ?_⟩
  have := h.2.mp he
  exact List.noConfusion this

/-- C8: scanner failures are isolated per plugin.  A folder without a
manifest is reported as ManifestMissing and excluded, every folder that
scans successfully still contributes its tuple to the catalog (one failure
never aborts the rest of the scan), and the catalog holds nothing but
successfully scanned tuples. -/
theorem scanAll_isolated (folders : List PluginFolder) (f : PluginFolder)
    (hf : f ∈ folders) (hm : f.manifest = none) :
    (f.name, ScanError.ManifestMissing) ∈ (scanAll folders).1 ∧
    (∀ g ∈ folders, ∀ p, scanFolder g = .ok p → p ∈ (scanAll folders).2) ∧
    (∀ p ∈ (scanAll folders).2, ∃ g ∈ folders, scanFolder g = .ok p) := by
  refine ⟨?_, ?_, ?_⟩
  · have hsf : scanFolder f = .error .ManifestMissing := by
      unfold scanFolder
      rw [hm]
    rw [scanAll]
    simp only [List.mem_filterMap]
    exact ⟨f, hf, by rw [hsf]⟩
  · intro g hg p hp
    rw [scanAll]
    simp only [List.mem_filterMap]
    exact ⟨g, hg, by rw [hp]; rfl⟩
  · intro p hp
    rw [scanAll] at hp
    simp only [List.mem_filterMap] at hp
    obtain ⟨g, hg, hgp⟩ := hp
    refine ⟨g, hg, ?_⟩
    cases hsg : scanFolder g with
    | error e => rw [hsg] at hgp; exact Option.noConfusion hgp
    | ok q =>
        rw [hsg] at hgp
        simp only [Except.toOption] at hgp
        rw [Option.some_inj.mp hgp]

/-- Witness for C8: scanning a good folder next to a manifest-less one
reports the broken folder and still catalogs the good one. -/
theorem scanAll_isolated_witness :
    ("broken", ScanError.ManifestMissing) ∈ (scanAll [folderGood, folderBroken]).1 ∧
    { id := "alpha", manifest := manifestA, componentName := "pipes" } ∈
      (scanAll [folderGood, folderBroken]).2 := by
  have h := scanAll_isolated [folderGood, folderBroken] folderBroken
    (by decide) (by decide)
  exact ⟨h.1, h.2.1 folderGood (by decide)
    { id := "alpha", manifest := manifestA, componentName := "pipes" } (by rfl)⟩

/-- C9: getPipesLevel is total with an Option-shaped interface: when the key
derived from the difficulty and level number is mapped it returns the layout
payload, and when no such level exists it returns none rather than an error
or any other shape. -/
theorem getPipesLevel_total (levelMap : List (String × LevelPayload))
    (d : Difficulty) (n : Nat) :
    (∃ e, levelMap.find? (fun e => e.1 == levelKey d n) = some e ∧
      getPipesLevel levelMap d n = some { layout := e.2.layout }) ∨
    (levelMap.find? (fun e => e.1 == levelKey d n) = none ∧
      getPipesLevel levelMap d n = none) := by
  cases h : levelMap.find? fun e => e.1 == levelKey d n with
  | none =>
      refine Or.inr ⟨rfl, ?_⟩
      unfold getPipesLevel
      rw [h]
  | some e =>
      refine Or.inl ⟨e, rfl, ?_⟩
      unfold getPipesLevel
      rw [h]

/-- C10: every onGameEnd result is one of win, loss and draw, and draw is a
distinct third outcome the callback type admits beyond the two terminal
states of the state machine, so a consuming host must handle it. -/
theorem gameResult_admits_draw :
    (∀ r : GameResult, r = .win ∨ r = .loss ∨ r = .draw) ∧
    GameResult.draw ≠ GameResult.win ∧ GameResult.draw ≠ GameResult.loss := by
  refine ⟨fun r => ?_, by decide, by decide⟩
  cases r with
  | win => exact Or.inl rfl
  | loss => exact Or.inr (Or.inl rfl)
  | draw => exact Or.inr (Or.inr rfl)

end Nooma
